import Mathlib

/-!
Verification of the posthog-telemetry core (telemetry.hpp / telemetry.cpp)
against its natural-language specification.

The C++ source is shallowly embedded: the event record and its JSON/timestamp
formatters become pure Lean functions, the telemetry coordinator becomes an
explicit state type with state-passing operations, and the task queue becomes
a labelled transition system (for interleaved producers) together with a
deterministic drain function (for the worker loop after Stop).  Exceptions are
modelled with Except, the process environment and the platform lookups as
explicit parameters.
-/

namespace Telemetry

/-- PostHogEvent from telemetry.hpp.  `properties` models the std::map in its
iteration order, i.e. as an association list sorted by key with unique keys. -/
structure PostHogEvent where
  event_name : String
  distinct_id : String
  properties : List (String × String)
deriving DecidableEq

/-- std::map insertion into a key-sorted association list: insert does not
overwrite an existing key. -/
def mapInsert (k : String) (v : String) : List (String × String) → List (String × String)
  | [] => [(k, v)]
  | (k0, v0) :: rest =>
      if k < k0 then (k, v) :: (k0, v0) :: rest
      else if k = k0 then (k0, v0) :: rest
      else (k0, v0) :: mapInsert k v rest

/-- A std::map built from a braced initializer list, first duplicate wins. -/
def mapOfList (l : List (String × String)) : List (String × String) :=
  l.foldl (fun m kv => mapInsert kv.1 kv.2 m) []

/-- One key/value pair as formatted by
StringUtil::Format("\"%s\": \"%s\"", kv.first, kv.second): the key and the
value are emitted verbatim between double quotes, with no escaping. -/
def formatPair (kv : String × String) : String :=
  "\"" ++ kv.1 ++ "\": \"" ++ kv.2 ++ "\""

/-- The loop of PostHogEvent::GetPropertiesJson: `json` is the accumulator,
`first` the flag suppressing the comma before the first pair. -/
def propsJsonAux (first : Bool) (json : String) : List (String × String) → String
  | [] => json
  | kv :: rest => propsJsonAux false (json ++ (if first then "" else ",") ++ formatPair kv) rest

/-- PostHogEvent::GetPropertiesJson: open brace, the comma-separated pairs,
close brace. -/
def GetPropertiesJson (e : PostHogEvent) : String :=
  propsJsonAux true "\x7b" e.properties ++ "\x7d"

/-- The pure body produced by the serialization loop, split out for proofs. -/
def propsBody : Bool → List (String × String) → String
  | _, [] => ""
  | first, kv :: rest => (if first then "" else ",") ++ formatPair kv ++ propsBody false rest

theorem string_data_append (s t : String) : (s ++ t).data = s.data ++ t.data := rfl

theorem propsJsonAux_eq (l : List (String × String)) :
    ∀ (first : Bool) (json : String), propsJsonAux first json l = json ++ propsBody first l := by
  induction l with
  | nil =>
      intro first json
      simp [propsJsonAux, propsBody]
  | cons kv rest ih =>
      intro first json
      simp [propsJsonAux, propsBody, ih, String.append_assoc]

theorem getPropertiesJson_eq (e : PostHogEvent) :
    GetPropertiesJson e = "\x7b" ++ propsBody true e.properties ++ "\x7d" := by
  simp [GetPropertiesJson, propsJsonAux_eq]

theorem data_quote : ("\"" : String).data = ['"'] := rfl

theorem data_mid : ("\": \"" : String).data = ['"', ':', ' ', '"'] := rfl

theorem data_lbrace : ("\x7b" : String).data = ['\x7b'] := rfl

theorem data_rbrace : ("\x7d" : String).data = ['\x7d'] := rfl

theorem len_quote : ("\"" : String).length = 1 := rfl

theorem len_mid : ("\": \"" : String).length = 4 := rfl

theorem len_comma : ("," : String).length = 1 := rfl

theorem len_lbrace : ("\x7b" : String).length = 1 := rfl

theorem len_rbrace : ("\x7d" : String).length = 1 := rfl

/-- Comma count contributed by the key and the value of one pair. -/
def pairCommas (kv : String × String) : Nat :=
  kv.1.data.count ',' + kv.2.data.count ','

/-- Total comma count hidden inside the keys and values themselves. -/
def pairCommaSum (l : List (String × String)) : Nat := (l.map pairCommas).sum

theorem formatPair_count (kv : String × String) :
    (formatPair kv).data.count ',' = pairCommas kv := by
  simp [formatPair, pairCommas, string_data_append, List.count_append]

theorem formatPair_length (kv : String × String) :
    (formatPair kv).length = kv.1.length + kv.2.length + 6 := by
  simp [formatPair, String.length_append, len_quote, len_mid]
  omega

theorem propsBody_count (l : List (String × String)) :
    (propsBody false l).data.count ',' = l.length + pairCommaSum l
    ∧ (propsBody true l).data.count ',' = l.length - 1 + pairCommaSum l := by
  induction l with
  | nil => simp [propsBody, pairCommaSum]
  | cons kv rest ih =>
      constructor
      · simp [propsBody, string_data_append, List.count_append, formatPair_count,
          pairCommaSum, List.map_cons, List.sum_cons, ih.1]
        omega
      · simp [propsBody, string_data_append, List.count_append, formatPair_count,
          pairCommaSum, List.map_cons, List.sum_cons, ih.1]
        omega

theorem propsBody_length (l : List (String × String)) :
    (propsBody false l).length
        = l.length + (l.map (fun kv => kv.1.length + kv.2.length + 6)).sum
    ∧ (propsBody true l).length
        = l.length - 1 + (l.map (fun kv => kv.1.length + kv.2.length + 6)).sum := by
  induction l with
  | nil => simp [propsBody]
  | cons kv rest ih =>
      constructor
      · simp [propsBody, String.length_append, formatPair_length, len_comma, ih.1]
        omega
      · simp [propsBody, String.length_append, formatPair_length, len_comma, ih.1]
        omega

/-- The key or value of a pair as it appears in the output: verbatim between
double quotes. -/
def quoted (s : String) : List Char := '"' :: s.data ++ ['"']

theorem quoted_key_infix_formatPair (kv : String × String) :
    quoted kv.1 <:+: (formatPair kv).data :=
  ⟨[], ':' :: ' ' :: '"' :: kv.2.data ++ ['"'], by
    simp [formatPair, quoted, string_data_append, data_quote, data_mid]⟩

theorem quoted_val_infix_formatPair (kv : String × String) :
    quoted kv.2 <:+: (formatPair kv).data :=
  ⟨'"' :: kv.1.data ++ ['"', ':', ' '], [], by
    simp [formatPair, quoted, string_data_append, data_quote, data_mid]⟩

theorem quoted_infix_propsBody (l : List (String × String)) :
    ∀ (first : Bool) (kv : String × String), kv ∈ l →
      quoted kv.1 <:+: (propsBody first l).data
      ∧ quoted kv.2 <:+: (propsBody first l).data := by
  induction l with
  | nil => intro _ kv h; cases h
  | cons kv0 rest ih =>
      intro first kv h
      rcases List.mem_cons.mp h with h | h
      · subst h
        constructor
        · obtain ⟨s, t, hst⟩ := quoted_key_infix_formatPair kv
          exact ⟨(if first then "" else ",").data ++ s,
            t ++ (propsBody false rest).data, by
              simp only [propsBody, string_data_append, ← hst, List.append_assoc]⟩
        · obtain ⟨s, t, hst⟩ := quoted_val_infix_formatPair kv
          exact ⟨(if first then "" else ",").data ++ s,
            t ++ (propsBody false rest).data, by
              simp only [propsBody, string_data_append, ← hst, List.append_assoc]⟩
      · obtain ⟨⟨s1, t1, h1⟩, ⟨s2, t2, h2⟩⟩ := ih false kv h
        constructor
        · exact ⟨(if first then "" else ",").data ++ (formatPair kv0).data ++ s1, t1, by
            simp only [propsBody, string_data_append, List.append_assoc, h1]⟩
        · exact ⟨(if first then "" else ",").data ++ (formatPair kv0).data ++ s2, t2, by
            simp only [propsBody, string_data_append, List.append_assoc, h2]⟩

/-- C7: GetPropertiesJson opens with a brace and closes with a brace, embeds
every key and value verbatim between double quotes, inserts exactly one comma
between adjacent pairs (so none for a single-property event: commas beyond
length - 1 can only come verbatim from the keys/values themselves), and
performs no escaping, as witnessed by the exact length accounting: two braces
plus, per pair, the raw key and value plus six syntax characters, plus the
separating commas. -/
theorem properties_json_format (e : PostHogEvent) :
    (GetPropertiesJson e).data.head? = some '\x7b'
    ∧ (GetPropertiesJson e).data.getLast? = some '\x7d'
    ∧ (∀ kv, kv ∈ e.properties →
        quoted kv.1 <:+: (GetPropertiesJson e).data
        ∧ quoted kv.2 <:+: (GetPropertiesJson e).data)
    ∧ (GetPropertiesJson e).data.count ','
        = e.properties.length - 1 + pairCommaSum e.properties
    ∧ (GetPropertiesJson e).length
        = 2 + (e.properties.length - 1)
          + (e.properties.map (fun kv => kv.1.length + kv.2.length + 6)).sum := by
  rw [getPropertiesJson_eq]
  refine ⟨?_, ?_, ?_, ?_, ?_⟩
  · simp [string_data_append, data_lbrace]
  · have : (("\x7b" ++ propsBody true e.properties ++ "\x7d") : String).data
        = ("\x7b" ++ propsBody true e.properties).data ++ ['\x7d'] := rfl
    rw [this, List.getLast?_concat]
  · intro kv hkv
    obtain ⟨⟨s1, t1, h1⟩, ⟨s2, t2, h2⟩⟩ := quoted_infix_propsBody e.properties true kv hkv
    constructor
    · exact ⟨'\x7b' :: s1, t1 ++ ['\x7d'], by
        simp only [string_data_append, data_lbrace, data_rbrace, List.append_assoc, ← h1]
        simp⟩
    · exact ⟨'\x7b' :: s2, t2 ++ ['\x7d'], by
        simp only [string_data_append, data_lbrace, data_rbrace, List.append_assoc, ← h2]
        simp⟩
  · simp [string_data_append, List.count_append, data_lbrace, data_rbrace,
      (propsBody_count e.properties).2]
  · have := (propsBody_length e.properties).2
    simp [String.length_append, len_lbrace, len_rbrace, this]
    omega

/-- The event of the spec's round-trip example. -/
def demoEvent : PostHogEvent :=
  ⟨"test_event", "user_123", [("extension_name", "demo"), ("extension_version", "1.0.0")]⟩

theorem properties_json_format_witness :
    quoted "extension_name" <:+: (GetPropertiesJson demoEvent).data
    ∧ quoted "demo" <:+: (GetPropertiesJson demoEvent).data :=
  (properties_json_format demoEvent).2.2.1 ("extension_name", "demo") (by simp [demoEvent])

/-! ## Timestamp formatting: PostHogEvent::GetNowISO8601

The C++ calls std::time(nullptr) (seconds since the Unix epoch), converts with
std::localtime — the broken-down civil time of the LOCAL timezone — and then
formats with strftime("%FT%TZ"), i.e. YYYY-MM-DD, a literal T, HH:MM:SS, and a
literal Z.  We model the wall clock as the epoch second `t` and the ambient
timezone as an offset in seconds: std::localtime(t) yields the proleptic
Gregorian civil time of t + tzOffset. -/

/-- Two-digit zero padding, as strftime applies to %m %d %H %M %S. -/
def pad2 (n : Nat) : String :=
  if n < 10 then "0" ++ toString n else toString n

/-- Four-digit zero padding for the year field of %F. -/
def pad4 (n : Nat) : String :=
  if n < 10 then "000" ++ toString n
  else if n < 100 then "00" ++ toString n
  else if n < 1000 then "0" ++ toString n
  else toString n

/-- Days-since-epoch to (year, month, day) in the proleptic Gregorian
calendar: the standard civil-from-days conversion used by C time libraries. -/
def civilFromDays (z0 : Int) : Int × Nat × Nat :=
  let z : Int := z0 + 719468
  let era : Int := (if 0 ≤ z then z else z - 146096) / 146097
  let doe : Nat := (z - era * 146097).toNat
  let yoe : Nat := (doe - doe / 1460 + doe / 36524 - doe / 146096) / 365
  let y : Int := (yoe : Int) + era * 400
  let doy : Nat := doe - (365 * yoe + yoe / 4 - yoe / 100)
  let mp : Nat := (5 * doy + 2) / 153
  let d : Nat := doy - (153 * mp + 2) / 5 + 1
  let m : Nat := if mp < 10 then mp + 3 else mp - 9
  (if m ≤ 2 then y + 1 else y, m, d)

/-- PostHogEvent::GetNowISO8601 at epoch second `t` under local timezone
offset `tzOffset` (seconds east of UTC): strftime("%FT%TZ", localtime(t)).
Note the source formats LOCAL time yet appends the literal UTC designator Z. -/
def GetNowISO8601 (t tzOffset : Int) : String :=
  let lt : Int := t + tzOffset
  let sod : Nat := (lt.emod 86400).toNat
  let days : Int := (lt - lt.emod 86400) / 86400
  let ymd := civilFromDays days
  pad4 ymd.1.toNat ++ "-" ++ pad2 ymd.2.1 ++ "-" ++ pad2 ymd.2.2 ++ "T"
    ++ pad2 (sod / 3600) ++ ":" ++ pad2 ((sod % 3600) / 60) ++ ":" ++ pad2 (sod % 60) ++ "Z"

/-! ## Hardware identifier: PostHogTelemetry::GetMacAddress / GetMacAddressSafe

The platform lookups are modelled by an abstract environment describing what
the OS calls would observe; C++ exceptions become Except.error. -/

/-- What the platform-specific MAC lookup can observe.  For Linux: whether
opendir("/sys/class/net") succeeded, the directory entries, which devices have
a driver symlink (IsPhysicalDevice), and the first whitespace-delimited token
of each device's address file (none when the stream read fails).  For Windows:
none when GetAdaptersInfo fails, otherwise the adapters' address byte lists.
For macOS: whether getifaddrs succeeded and the en0 AF_LINK address bytes when
that interface entry exists. -/
inductive MacEnv where
  | linux (dirOk : Bool) (devices : List String) (physical : String → Bool)
      (readAddress : String → Option String)
  | windows (adapters : Option (List (List Nat)))
  | apple (ifaddrsOk : Bool) (en0 : Option (List Nat))
  | otherPlatform

/-- PostHogTelemetry::FindFirstPhysicalDevice: list /sys/class/net (throwing
if the directory cannot be opened), drop "." and "..", sort, and return the
first physical device, or "" when none is. -/
def FindFirstPhysicalDevice (dirOk : Bool) (devices : List String)
    (physical : String → Bool) : Except String String :=
  if dirOk = false then Except.error "Could not open /sys/class/net"
  else
    let entries := devices.filter (fun d => !(d == ".") && !(d == ".."))
    match (entries.mergeSort (fun a b => a ≤ b)).find? physical with
    | some d => Except.ok d
    | none => Except.ok ""

/-- Linux PostHogTelemetry::GetMacAddress: sentinel when no physical device is
found, the raw token of the device's address file when the read succeeds, and
a thrown runtime_error when it does not. -/
def GetMacAddressLinux (dirOk : Bool) (devices : List String)
    (physical : String → Bool) (readAddress : String → Option String) :
    Except String String :=
  match FindFirstPhysicalDevice dirOk devices physical with
  | Except.error e => Except.error e
  | Except.ok device =>
      if device = "" then Except.ok "00:00:00:00:00:00"
      else
        match readAddress device with
        | some mac => Except.ok mac
        | none => Except.error ("Could not read mac address of device " ++ device)

/-- One address byte (a value below 256) in two lowercase hex digits, as
produced by std::setw(2) << std::setfill('0') << std::hex. -/
def hexByte (b : Nat) : String :=
  let digit : Nat → Char := fun n => if n < 10 then Char.ofNat (48 + n) else Char.ofNat (87 + n)
  String.mk [digit ((b % 256) / 16), digit (b % 16)]

/-- Windows adapter formatting: hex bytes joined by dashes. -/
def winMacFormat (bytes : List Nat) : String :=
  String.intercalate "-" (bytes.map hexByte)

/-- Windows PostHogTelemetry::GetMacAddress: "" when GetAdaptersInfo fails or
no adapter exists, else the dash-separated hex of the first adapter. -/
def GetMacAddressWindows (adapters : Option (List (List Nat))) : Except String String :=
  match adapters with
  | none => Except.ok ""
  | some [] => Except.ok ""
  | some (a :: _) => Except.ok (winMacFormat a)

/-- macOS formatting: hex bytes joined by colons. -/
def colonMacFormat (bytes : List Nat) : String :=
  String.intercalate ":" (bytes.map hexByte)

/-- macOS PostHogTelemetry::GetMacAddress: throws when getifaddrs fails, the
colon-separated hex of en0 when its link address has exactly 6 bytes, and the
all-zero sentinel otherwise. -/
def GetMacAddressApple (ifaddrsOk : Bool) (en0 : Option (List Nat)) :
    Except String String :=
  if ifaddrsOk = false then Except.error "getifaddrs() failed!"
  else
    match en0 with
    | some bytes =>
        if bytes.length = 6 then Except.ok (colonMacFormat bytes)
        else Except.ok "00:00:00:00:00:00"
    | none => Except.ok "00:00:00:00:00:00"

/-- PostHogTelemetry::GetMacAddress, dispatched on the compile-time platform;
the #else fallback returns "". -/
def GetMacAddress : MacEnv → Except String String
  | MacEnv.linux dirOk devices physical readAddress =>
      GetMacAddressLinux dirOk devices physical readAddress
  | MacEnv.windows adapters => GetMacAddressWindows adapters
  | MacEnv.apple ifaddrsOk en0 => GetMacAddressApple ifaddrsOk en0
  | MacEnv.otherPlatform => Except.ok ""

/-- PostHogTelemetry::GetMacAddressSafe: GetMacAddress inside try/catch, any
std::exception replaced by the all-zero sentinel. -/
def GetMacAddressSafe (env : MacEnv) : String :=
  match GetMacAddress env with
  | Except.ok s => s
  | Except.error _ => "00:00:00:00:00:00"

/-- Decidable check for the spec's "colon- or dash-separated 6-group hex
pattern": six groups of exactly two hex digits. -/
def isHexChar (c : Char) : Bool :=
  c.isDigit || (97 ≤ c.toNat && c.toNat ≤ 102) || (65 ≤ c.toNat && c.toNat ≤ 70)

/-- Split a character list at every occurrence of `sep`. -/
def splitGroups (sep : Char) : List Char → List (List Char)
  | [] => [[]]
  | c :: rest =>
      let gs := splitGroups sep rest
      if c = sep then [] :: gs
      else
        match gs with
        | [] => [[c]]
        | g :: gt => (c :: g) :: gt

def macGroupsOk (groups : List (List Char)) : Bool :=
  groups.length == 6 && groups.all (fun g => g.length == 2 && g.all isHexChar)

def macPattern (s : String) : Bool :=
  macGroupsOk (splitGroups ':' s.data) || macGroupsOk (splitGroups '-' s.data)

/-- C5: evaluation of GetNowISO8601 at the failing input.  The format is the
claimed 20-character YYYY-MM-DDTHH:MM:SSZ, but the code formats std::localtime
output, not UTC: at epoch second 0 under a +1 hour local timezone it emits
"1970-01-01T01:00:00Z", claiming 01:00:00 UTC when the actual UTC time is
00:00:00, so the result depends on the local timezone and does not represent
the current time in UTC. -/
theorem timestamp_local_not_utc :
    GetNowISO8601 0 3600 = "1970-01-01T01:00:00Z"
    ∧ GetNowISO8601 0 0 = "1970-01-01T00:00:00Z"
    ∧ (GetNowISO8601 0 3600).length = 20
    ∧ GetNowISO8601 0 3600 ≠ GetNowISO8601 0 0 :=
  ⟨by decide, by decide, by decide, by decide⟩

/-- C6 counterexample: on Windows, when GetAdaptersInfo fails the lookup
returns the empty string, which neither matches the 6-group hex pattern nor
equals the all-zero sentinel — refuting "every underlying lookup failure
yields the sentinel". -/
theorem mac_claim_counterexample :
    GetMacAddressSafe (MacEnv.windows none) = ""
    ∧ macPattern "" = false
    ∧ ("" : String) ≠ "00:00:00:00:00:00" :=
  ⟨rfl, by decide, by decide⟩

/-- C6 (amended): GetMacAddressSafe never raises — every exception thrown by
the platform lookup is caught and replaced by the all-zero sentinel, and every
non-throwing lookup result is passed through unvalidated.  In particular the
failures the lookups report by value yield the EMPTY string, not the sentinel:
a Windows adapter-query failure, an empty Windows adapter list, and every call
on an unsupported platform.  A Windows success is the dash-separated two-hex-
digit rendering of the first adapter's bytes; a macOS success is the
colon-separated rendering of en0's address when it has exactly 6 bytes and the
sentinel otherwise; a Linux success is the raw token of the device's address
file, or the sentinel when no physical device exists. -/
theorem mac_safe_characterisation (env : MacEnv) :
    (∀ e, GetMacAddress env = Except.error e
        → GetMacAddressSafe env = "00:00:00:00:00:00")
    ∧ (∀ s, GetMacAddress env = Except.ok s → GetMacAddressSafe env = s)
    ∧ GetMacAddressSafe (MacEnv.windows none) = ""
    ∧ GetMacAddressSafe (MacEnv.windows (some [])) = ""
    ∧ GetMacAddressSafe MacEnv.otherPlatform = ""
    ∧ (∀ a rest, GetMacAddressSafe (MacEnv.windows (some (a :: rest))) = winMacFormat a)
    ∧ (∀ en0, GetMacAddressSafe (MacEnv.apple true en0)
        = match en0 with
          | some bytes =>
              if bytes.length = 6 then colonMacFormat bytes else "00:00:00:00:00:00"
          | none => "00:00:00:00:00:00") := by
  refine ⟨?_, ?_, rfl, rfl, rfl, fun a rest => rfl, ?_⟩
  · intro e he
    simp [GetMacAddressSafe, he]
  · intro s hs
    simp [GetMacAddressSafe, hs]
  · intro en0
    cases en0 with
    | none => rfl
    | some bytes =>
        simp only [GetMacAddressSafe, GetMacAddress, GetMacAddressApple]
        by_cases h : bytes.length = 6 <;> simp [h]

theorem mac_safe_characterisation_witness :
    GetMacAddressSafe (MacEnv.linux false [] (fun _ => false) (fun _ => none))
      = "00:00:00:00:00:00" :=
  (mac_safe_characterisation (MacEnv.linux false [] (fun _ => false) (fun _ => none))).1
    "Could not open /sys/class/net" rfl

/-! ## TelemetryTaskQueue

struct QueueItem pairs the TaskFunction with its data.  A task body may throw:
it is modelled as a function into Except.  The queue itself is modelled two
ways, both read off ProcessQueue: an interleaved labelled transition system
(producers enqueue, the worker pops the front, Stop sets the flag, the worker
exits only when stopping and empty), with ghost fields recording the history
of enqueued and executed items; and a deterministic drain function for the
worker's run once stop_processing is set. -/

/-- struct QueueItem of TelemetryTaskQueue. -/
structure QueueItem (T : Type) where
  task : T → Except String Unit
  data : T

/-- The queue state: `tasks` and `stop_processing` are the C++ fields,
`terminated` tracks whether ProcessQueue has returned, and `executed` /
`enqueued` are ghost histories in order. -/
structure QueueState (T : Type) where
  tasks : List (QueueItem T)
  stop_processing : Bool
  terminated : Bool
  executed : List (QueueItem T)
  enqueued : List (QueueItem T)

/-- A fresh queue: TelemetryTaskQueue's constructor starts the worker with an
empty queue and stop_processing = false. -/
def initQueue (T : Type) : QueueState T :=
  ⟨[], false, false, [], []⟩

/-- One atomic step of the system: EnqueueTask pushes at the back (allowed at
any time, even after Stop); the worker, while its loop is alive, pops the
front task and executes it under try/catch, the outcome being discarded;
Stop sets stop_processing; the worker returns only when stop_processing is
set and the queue is empty. -/
inductive QStep (T : Type) : QueueState T → QueueState T → Prop where
  | enqueueTask (s : QueueState T) (f : T → Except String Unit) (d : T) :
      QStep T s { s with tasks := s.tasks ++ [⟨f, d⟩], enqueued := s.enqueued ++ [⟨f, d⟩] }
  | workerRun (s : QueueState T) (item : QueueItem T) (rest : List (QueueItem T)) :
      s.terminated = false → s.tasks = item :: rest →
      QStep T s { s with tasks := rest, executed := s.executed ++ [item] }
  | stopSignal (s : QueueState T) :
      QStep T s { s with stop_processing := true }
  | workerExit (s : QueueState T) :
      s.terminated = false → s.stop_processing = true → s.tasks = [] →
      QStep T s { s with terminated := true }

/-- All states reachable from a given one by interleaved steps. -/
def QueueReaches (T : Type) : QueueState T → QueueState T → Prop :=
  Relation.ReflTransGen (QStep T)

theorem queue_step_invariant {T : Type} {a b : QueueState T} (h : QStep T a b)
    (hab : a.executed ++ a.tasks = a.enqueued) :
    b.executed ++ b.tasks = b.enqueued := by
  cases h with
  | enqueueTask f d =>
      show a.executed ++ (a.tasks ++ [⟨f, d⟩]) = a.enqueued ++ [⟨f, d⟩]
      rw [← List.append_assoc, hab]
  | workerRun item rest hterm htasks =>
      show (a.executed ++ [item]) ++ rest = a.enqueued
      rw [List.append_assoc, ← hab, htasks]
      rfl
  | stopSignal => exact hab
  | workerExit h1 h2 h3 => exact hab

theorem queue_reaches_invariant {T : Type} {s : QueueState T}
    (h : QueueReaches T (initQueue T) s) : s.executed ++ s.tasks = s.enqueued := by
  induction h with
  | refl => rfl
  | tail hsteps hstep ih => exact queue_step_invariant hstep ih

/-- C3: in every reachable state the executed history followed by the pending
tasks is exactly the enqueued history; hence the executed sequence is a prefix
of the enqueued sequence, and the i-th task executed is the i-th task
enqueued (executed = take over the enqueued history). -/
theorem queue_fifo_order (T : Type) (s : QueueState T)
    (h : QueueReaches T (initQueue T) s) :
    s.executed ++ s.tasks = s.enqueued
    ∧ s.executed = s.enqueued.take s.executed.length := by
  have hinv := queue_reaches_invariant h
  refine ⟨hinv, ?_⟩
  rw [← hinv, List.take_left]

/-- A trivially succeeding sample task. -/
def sampleItem : QueueItem Nat :=
  ⟨fun _ => Except.ok (), 0⟩

/-- The state after enqueueing sampleItem and letting the worker run it. -/
def sampleFinal : QueueState Nat :=
  ⟨[], false, false, [sampleItem], [sampleItem]⟩

theorem queue_fifo_order_witness :
    sampleFinal.executed ++ sampleFinal.tasks = sampleFinal.enqueued
    ∧ sampleFinal.executed = sampleFinal.enqueued.take sampleFinal.executed.length :=
  queue_fifo_order Nat sampleFinal
    (Relation.ReflTransGen.tail
      (Relation.ReflTransGen.single
        (QStep.enqueueTask (initQueue Nat) sampleItem.task sampleItem.data))
      (QStep.workerRun _ sampleItem [] rfl rfl))

/-- The worker loop body repeated over an explicit copy of the pending list:
pop the front item, execute it — try item.task(item.data) with every thrown
outcome caught and discarded — append it to the executed history, and
continue; on an empty queue exit if stop_processing is set. -/
def drainGo {T : Type} : List (QueueItem T) → QueueState T → QueueState T
  | [], s => if s.stop_processing then { s with terminated := true } else s
  | item :: rest, s =>
      let _outcome : Except String Unit := item.task item.data
      drainGo rest { s with tasks := rest, executed := s.executed ++ [item] }

/-- The worker's run once Stop() has been signalled: drain the queue. -/
def drainQueue {T : Type} (s : QueueState T) : QueueState T :=
  drainGo s.tasks s

theorem drainGo_spec {T : Type} (l : List (QueueItem T)) :
    ∀ s : QueueState T, s.tasks = l → s.stop_processing = true →
      drainGo l s = { s with tasks := [], executed := s.executed ++ l, terminated := true } := by
  induction l with
  | nil =>
      intro s hl hstop
      simp [drainGo, hstop, ← hl]
  | cons item rest ih =>
      intro s hl hstop
      rw [drainGo, ih { s with tasks := rest, executed := s.executed ++ [item] } rfl hstop]
      simp

/-- C4: with stop_processing set, drainQueue executes every pending task in
order — in particular, even when the task at position i throws (its body
returns Except.error), every task queued after it is still executed — and the
worker loop exits normally with an empty queue; no task failure terminates
it early. -/
theorem worker_survives_task_exception {T : Type} (s : QueueState T)
    (hstop : s.stop_processing = true)
    (i : Nat) (hi : i < s.tasks.length) (e : String)
    (_hthrow : (s.tasks.get ⟨i, hi⟩).task (s.tasks.get ⟨i, hi⟩).data = Except.error e) :
    (drainQueue s).executed = s.executed ++ s.tasks
    ∧ (drainQueue s).tasks = []
    ∧ (drainQueue s).terminated = true := by
  rw [drainQueue, drainGo_spec s.tasks s rfl hstop]
  exact ⟨rfl, rfl, rfl⟩

/-- A queue holding a throwing task followed by two normal tasks, stopped. -/
def throwingStopState : QueueState Nat :=
  ⟨[⟨fun _ => Except.error "boom", 0⟩, ⟨fun _ => Except.ok (), 1⟩, ⟨fun _ => Except.ok (), 2⟩],
    true, false, [], []⟩

theorem worker_survives_task_exception_witness :
    (drainQueue throwingStopState).executed
        = throwingStopState.executed ++ throwingStopState.tasks
    ∧ (drainQueue throwingStopState).tasks = []
    ∧ (drainQueue throwingStopState).terminated = true :=
  worker_survives_task_exception throwingStopState rfl 0 (by decide) "boom" rfl

/-! ## PostHogProcess and the telemetry coordinator

PostHogProcess reads the DATAZOO_DISABLE_TELEMETRY environment variable at the
moment it runs; the getenv result is the Option String parameter.  The payload
build needs the current time, passed through as in GetNowISO8601.  The return
value is the payload handed to the HTTP transport (an opaque external
collaborator), or none when the opt-out suppressed the send: no client is
constructed and no network call happens. -/

/-- The exact content of the C++ raw string literal, with the five %s format
arguments substituted. -/
def postHogPayload (api_key : String) (event : PostHogEvent) (t tzOffset : Int) : String :=
  "\n        \x7b\n            \"api_key\": \"" ++ api_key
    ++ "\",\n            \"batch\": [\x7b\n                \"event\": \"" ++ event.event_name
    ++ "\",\n                \"distinct_id\": \"" ++ event.distinct_id
    ++ "\",\n                \"properties\": " ++ GetPropertiesJson event
    ++ ",\n                \"timestamp\": \"" ++ GetNowISO8601 t tzOffset
    ++ "\"\n            \x7d]\n        \x7d\n    "

/-- The opt-out test of PostHogProcess: exact, case-sensitive match against
"1", "true" or "yes". -/
def optOutTruthy (v : String) : Bool :=
  v == "1" || v == "true" || v == "yes"

/-- static PostHogProcess(api_key, event): if DATAZOO_DISABLE_TELEMETRY is set
to a truthy value, return before building anything; otherwise format the
payload and hand it to the blocking POST. -/
def PostHogProcess (disable_telemetry : Option String) (api_key : String)
    (event : PostHogEvent) (t tzOffset : Int) : Option String :=
  match disable_telemetry with
  | some v =>
      if optOutTruthy v then none
      else some (postHogPayload api_key event t tzOffset)
  | none => some (postHogPayload api_key event t tzOffset)

/-- The closure enqueued by the capture operations: the by-value captured API
key together with the event payload data. -/
structure QueueTask where
  api_key : String
  event : PostHogEvent
deriving DecidableEq

/-- Running a queued send task: the enqueued closure is
[api_key](auto event) { PostHogProcess(api_key, event); }, and the
environment variable is read only now, at execution time. -/
def executeTask (disable_telemetry : Option String) (t tzOffset : Int)
    (tk : QueueTask) : Option String :=
  PostHogProcess disable_telemetry tk.api_key tk.event t tzOffset

/-- PostHogTelemetry's mutable state: the atomic enabled flag, the API key,
and the lazily constructed queue (none until EnsureQueueInitialized runs; the
worker thread only exists once the queue does).  The queue is summarised by
its list of enqueued send tasks. -/
structure CoordinatorState where
  telemetry_enabled : Bool
  api_key : String
  queue : Option (List QueueTask)
deriving DecidableEq

/-- The private constructor: enabled by default, empty API key, no queue. -/
def initCoordinator : CoordinatorState :=
  ⟨true, "", none⟩

/-- PostHogTelemetry::EnsureQueueInitialized. -/
def EnsureQueueInitialized (s : CoordinatorState) : CoordinatorState :=
  match s.queue with
  | none => { s with queue := some [] }
  | some _ => s

/-- The extension_load event built by CaptureExtensionLoad; properties is a
std::map, so the braced initializer ends up in key-sorted order. -/
def extensionLoadEvent (env : MacEnv) (platform extension_name extension_version : String) :
    PostHogEvent :=
  ⟨"extension_load", GetMacAddressSafe env,
    mapOfList [("extension_name", extension_name),
               ("extension_version", extension_version),
               ("extension_platform", platform)]⟩

/-- The function_execution event built by CaptureFunctionExecution. -/
def functionExecutionEvent (env : MacEnv) (function_name function_version : String) :
    PostHogEvent :=
  ⟨"function_execution", GetMacAddressSafe env,
    mapOfList [("function_name", function_name),
               ("function_version", function_version)]⟩

/-- PostHogTelemetry::CaptureExtensionLoad: return immediately when disabled
or when the API key is empty; otherwise build the event, snapshot the current
API key, initialise the queue if needed, and enqueue the send closure.
`env` and `platform` stand for the ambient GetMacAddressSafe() observations
and DuckDB::Platform(). -/
def CaptureExtensionLoad (s : CoordinatorState) (env : MacEnv)
    (platform extension_name extension_version : String) : CoordinatorState :=
  if s.telemetry_enabled = false then s
  else if s.api_key = "" then s
  else
    let event := extensionLoadEvent env platform extension_name extension_version
    let api_key := s.api_key
    let s1 := EnsureQueueInitialized s
    { s1 with queue := some ((s1.queue.getD []) ++ [⟨api_key, event⟩]) }

/-- PostHogTelemetry::CaptureFunctionExecution: same gating in one condition,
then build, snapshot the key, ensure the queue, enqueue. -/
def CaptureFunctionExecution (s : CoordinatorState) (env : MacEnv)
    (function_name function_version : String) : CoordinatorState :=
  if s.telemetry_enabled = false ∨ s.api_key = "" then s
  else
    let event := functionExecutionEvent env function_name function_version
    let api_key := s.api_key
    let s1 := EnsureQueueInitialized s
    { s1 with queue := some ((s1.queue.getD []) ++ [⟨api_key, event⟩]) }

/-- PostHogTelemetry::IsEnabled. -/
def IsEnabled (s : CoordinatorState) : Bool :=
  s.telemetry_enabled

/-- PostHogTelemetry::SetEnabled. -/
def SetEnabled (s : CoordinatorState) (enabled : Bool) : CoordinatorState :=
  { s with telemetry_enabled := enabled }

/-- PostHogTelemetry::GetAPIKey (the lock only matters for real
concurrency). -/
def GetAPIKey (s : CoordinatorState) : String :=
  s.api_key

/-- PostHogTelemetry::SetAPIKey. -/
def SetAPIKey (s : CoordinatorState) (new_key : String) : CoordinatorState :=
  { s with api_key := new_key }

theorem mapOfList_extensionLoad (n v p : String) :
    mapOfList [("extension_name", n), ("extension_version", v), ("extension_platform", p)]
      = [("extension_name", n), ("extension_platform", p), ("extension_version", v)] := by
  simp [mapOfList, mapInsert]
  rw [if_neg (by decide), if_pos (by decide)]

theorem mapOfList_functionExecution (n v : String) :
    mapOfList [("function_name", n), ("function_version", v)]
      = [("function_name", n), ("function_version", v)] := by
  simp [mapOfList, mapInsert]
  decide

theorem captureExtensionLoad_noop (s : CoordinatorState) (env : MacEnv)
    (platform n v : String) (h : s.telemetry_enabled = false ∨ s.api_key = "") :
    CaptureExtensionLoad s env platform n v = s := by
  unfold CaptureExtensionLoad
  rcases h with h | h
  · rw [if_pos h]
  · by_cases he : s.telemetry_enabled = false
    · rw [if_pos he]
    · rw [if_neg he, if_pos h]

theorem captureFunctionExecution_noop (s : CoordinatorState) (env : MacEnv)
    (n v : String) (h : s.telemetry_enabled = false ∨ s.api_key = "") :
    CaptureFunctionExecution s env n v = s := by
  unfold CaptureFunctionExecution
  rw [if_pos h]

/-- C1: if telemetry is disabled or the stored API key is empty, both capture
operations return with the coordinator state unchanged — nothing is built, no
queue is constructed, nothing is enqueued. -/
theorem capture_noop_when_disabled_or_unconfigured
    (s : CoordinatorState) (env env2 : MacEnv) (platform n v fn fv : String)
    (h : s.telemetry_enabled = false ∨ s.api_key = "") :
    CaptureExtensionLoad s env platform n v = s
    ∧ CaptureFunctionExecution s env2 fn fv = s :=
  ⟨captureExtensionLoad_noop s env platform n v h,
   captureFunctionExecution_noop s env2 fn fv h⟩

theorem capture_noop_witness :
    CaptureExtensionLoad ⟨false, "phc_key", none⟩ MacEnv.otherPlatform "linux" "ext" "1.0"
        = ⟨false, "phc_key", none⟩
    ∧ CaptureFunctionExecution ⟨false, "phc_key", none⟩ MacEnv.otherPlatform "f" "0.1.0"
        = ⟨false, "phc_key", none⟩ :=
  capture_noop_when_disabled_or_unconfigured ⟨false, "phc_key", none⟩
    MacEnv.otherPlatform MacEnv.otherPlatform "linux" "ext" "1.0" "f" "0.1.0" (Or.inl rfl)

theorem optOutTruthy_iff (v : String) :
    optOutTruthy v = true ↔ (v = "1" ∨ v = "true" ∨ v = "yes") := by
  simp [optOutTruthy, or_assoc]

/-- C2: a queued send task, whenever it executes, performs no network call
exactly when the opt-out variable is at that moment set to "1", "true" or
"yes" (case-sensitive, exact); for any other value or when unset the send
proceeds to the transport.  This holds for every task — a task captured and
enqueued before the variable was set is still suppressed, because the capture
path never reads the variable: only executeTask does. -/
theorem optout_checked_at_send (tk : QueueTask) (env : Option String) (t tzOffset : Int) :
    executeTask env t tzOffset tk = none
      ↔ ∃ v, env = some v ∧ (v = "1" ∨ v = "true" ∨ v = "yes") := by
  cases env with
  | none => simp [executeTask, PostHogProcess]
  | some v =>
      constructor
      · intro hc
        refine ⟨v, rfl, ?_⟩
        by_cases h : optOutTruthy v
        · exact (optOutTruthy_iff v).mp h
        · exfalso
          have hsome : executeTask (some v) t tzOffset tk
              = some (postHogPayload tk.api_key tk.event t tzOffset) := by
            simp [executeTask, PostHogProcess, h]
          rw [hsome] at hc
          exact Option.noConfusion hc
      · rintro ⟨w, hw, hv⟩
        have hvw : v = w := by injection hw
        subst hvw
        have h : optOutTruthy v := (optOutTruthy_iff v).mpr hv
        simp [executeTask, PostHogProcess, h]

theorem optout_checked_at_send_witness :
    executeTask (some "1") 0 0 ⟨"phc_key", demoEvent⟩ = none :=
  (optout_checked_at_send ⟨"phc_key", demoEvent⟩ (some "1") 0 0).mpr
    ⟨"1", rfl, Or.inl rfl⟩

theorem captureExtensionLoad_queue (s : CoordinatorState) (env : MacEnv)
    (platform n v : String) (hen : s.telemetry_enabled = true) (hkey : s.api_key ≠ "") :
    (CaptureExtensionLoad s env platform n v).queue
      = some ((s.queue.getD []) ++ [⟨s.api_key, extensionLoadEvent env platform n v⟩]) := by
  unfold CaptureExtensionLoad
  rw [if_neg (by simp [hen]), if_neg hkey]
  cases hq : s.queue with
  | none => simp [EnsureQueueInitialized, hq]
  | some q => simp [EnsureQueueInitialized, hq]

theorem captureFunctionExecution_queue (s : CoordinatorState) (env : MacEnv)
    (n v : String) (hen : s.telemetry_enabled = true) (hkey : s.api_key ≠ "") :
    (CaptureFunctionExecution s env n v).queue
      = some ((s.queue.getD []) ++ [⟨s.api_key, functionExecutionEvent env n v⟩]) := by
  unfold CaptureFunctionExecution
  rw [if_neg (by simp [hen, hkey])]
  cases hq : s.queue with
  | none => simp [EnsureQueueInitialized, hq]
  | some q => simp [EnsureQueueInitialized, hq]

/-- C8: when not short-circuited, CaptureExtensionLoad enqueues an event named
"extension_load" whose distinct_id is the best-effort hardware identifier and
whose properties are exactly extension_name, extension_platform and
extension_version (key-sorted std::map order), and CaptureFunctionExecution
enqueues an event named "function_execution" with exactly function_name and
function_version. -/
theorem capture_builds_expected_events
    (s : CoordinatorState) (env : MacEnv) (platform n v fn fv : String)
    (hen : s.telemetry_enabled = true) (hkey : s.api_key ≠ "") :
    (∃ q, (CaptureExtensionLoad s env platform n v).queue = some q
      ∧ q.getLast? = some ⟨s.api_key,
          ⟨"extension_load", GetMacAddressSafe env,
            [("extension_name", n), ("extension_platform", platform),
             ("extension_version", v)]⟩⟩)
    ∧ (∃ q, (CaptureFunctionExecution s env fn fv).queue = some q
      ∧ q.getLast? = some ⟨s.api_key,
          ⟨"function_execution", GetMacAddressSafe env,
            [("function_name", fn), ("function_version", fv)]⟩⟩) := by
  constructor
  · refine ⟨_, captureExtensionLoad_queue s env platform n v hen hkey, ?_⟩
    rw [List.getLast?_concat]
    simp [extensionLoadEvent, mapOfList_extensionLoad]
  · refine ⟨_, captureFunctionExecution_queue s env fn fv hen hkey, ?_⟩
    rw [List.getLast?_concat]
    simp [functionExecutionEvent, mapOfList_functionExecution]

theorem capture_builds_expected_events_witness :
    (∃ q, (CaptureExtensionLoad ⟨true, "phc_key", none⟩ MacEnv.otherPlatform
        "linux_amd64" "spatial" "1.0.0").queue = some q
      ∧ q.getLast? = some ⟨"phc_key",
          ⟨"extension_load", GetMacAddressSafe MacEnv.otherPlatform,
            [("extension_name", "spatial"), ("extension_platform", "linux_amd64"),
             ("extension_version", "1.0.0")]⟩⟩)
    ∧ (∃ q, (CaptureFunctionExecution ⟨true, "phc_key", none⟩ MacEnv.otherPlatform
        "read_csv" "0.1.0").queue = some q
      ∧ q.getLast? = some ⟨"phc_key",
          ⟨"function_execution", GetMacAddressSafe MacEnv.otherPlatform,
            [("function_name", "read_csv"), ("function_version", "0.1.0")]⟩⟩) :=
  capture_builds_expected_events ⟨true, "phc_key", none⟩ MacEnv.otherPlatform
    "linux_amd64" "spatial" "1.0.0" "read_csv" "0.1.0" rfl (by decide)

/-- C9: the API key embedded in an enqueued send task is the coordinator key
snapshotted at capture time: SetAPIKey applied after the capture leaves the
queue — including every task's embedded key — untouched, and the task just
enqueued carries the capture-time key. -/
theorem api_key_snapshot
    (s : CoordinatorState) (env : MacEnv) (platform n v fn fv k2 : String)
    (hen : s.telemetry_enabled = true) (hkey : s.api_key ≠ "") :
    (SetAPIKey (CaptureExtensionLoad s env platform n v) k2).queue
        = (CaptureExtensionLoad s env platform n v).queue
    ∧ (CaptureExtensionLoad s env platform n v).queue
        = some ((s.queue.getD []) ++ [⟨s.api_key, extensionLoadEvent env platform n v⟩])
    ∧ (SetAPIKey (CaptureFunctionExecution s env fn fv) k2).queue
        = (CaptureFunctionExecution s env fn fv).queue
    ∧ (CaptureFunctionExecution s env fn fv).queue
        = some ((s.queue.getD []) ++ [⟨s.api_key, functionExecutionEvent env fn fv⟩]) :=
  ⟨rfl, captureExtensionLoad_queue s env platform n v hen hkey,
   rfl, captureFunctionExecution_queue s env fn fv hen hkey⟩

theorem api_key_snapshot_witness :
    (SetAPIKey (CaptureExtensionLoad ⟨true, "old_key", none⟩ MacEnv.otherPlatform
        "linux" "ext" "1.0") "new_key").queue
      = (CaptureExtensionLoad ⟨true, "old_key", none⟩ MacEnv.otherPlatform
        "linux" "ext" "1.0").queue
    ∧ (CaptureExtensionLoad ⟨true, "old_key", none⟩ MacEnv.otherPlatform
        "linux" "ext" "1.0").queue
      = some (((⟨true, "old_key", none⟩ : CoordinatorState).queue.getD [])
          ++ [⟨"old_key", extensionLoadEvent MacEnv.otherPlatform "linux" "ext" "1.0"⟩]) :=
  ⟨(api_key_snapshot ⟨true, "old_key", none⟩ MacEnv.otherPlatform
      "linux" "ext" "1.0" "f" "0.1.0" "new_key" rfl (by decide)).1,
   (api_key_snapshot ⟨true, "old_key", none⟩ MacEnv.otherPlatform
      "linux" "ext" "1.0" "f" "0.1.0" "new_key" rfl (by decide)).2.1⟩

/-- A call against the coordinator's public mutating surface. -/
inductive CoordOp where
  | capExtensionLoad (env : MacEnv) (platform n v : String)
  | capFunctionExecution (env : MacEnv) (n v : String)
  | setEnabled (b : Bool)
  | setAPIKey (k : String)

def applyOp (s : CoordinatorState) : CoordOp → CoordinatorState
  | CoordOp.capExtensionLoad env platform n v => CaptureExtensionLoad s env platform n v
  | CoordOp.capFunctionExecution env n v => CaptureFunctionExecution s env n v
  | CoordOp.setEnabled b => SetEnabled s b
  | CoordOp.setAPIKey k => SetAPIKey s k

def applyOps (s : CoordinatorState) (ops : List CoordOp) : CoordinatorState :=
  ops.foldl applyOp s

theorem applyOps_unconfigured (ops : List CoordOp) :
    ∀ s : CoordinatorState, s.api_key = "" → s.queue = none →
      (∀ k, CoordOp.setAPIKey k ∈ ops → k = "") →
      (applyOps s ops).api_key = "" ∧ (applyOps s ops).queue = none := by
  induction ops with
  | nil =>
      intro s h1 h2 _
      exact ⟨h1, h2⟩
  | cons op rest ih =>
      intro s h1 h2 hk
      have hstep : (applyOp s op).api_key = "" ∧ (applyOp s op).queue = none := by
        cases op with
        | capExtensionLoad env platform n v =>
            rw [show applyOp s (CoordOp.capExtensionLoad env platform n v)
                  = CaptureExtensionLoad s env platform n v from rfl,
              captureExtensionLoad_noop s env platform n v (Or.inr h1)]
            exact ⟨h1, h2⟩
        | capFunctionExecution env n v =>
            rw [show applyOp s (CoordOp.capFunctionExecution env n v)
                  = CaptureFunctionExecution s env n v from rfl,
              captureFunctionExecution_noop s env n v (Or.inr h1)]
            exact ⟨h1, h2⟩
        | setEnabled b => exact ⟨h1, h2⟩
        | setAPIKey k =>
            have hk0 : k = "" := hk k (List.mem_cons_self _ _)
            subst hk0
            exact ⟨rfl, h2⟩
      exact ih (applyOp s op) hstep.1 hstep.2
        (fun k hm => hk k (List.mem_cons_of_mem _ hm))

/-- C10: the constructor leaves the coordinator enabled, with an empty API key
and no queue (hence no worker thread); and after any sequence of operations
none of which is a SetAPIKey with a non-empty key, the key is still empty and
the queue still unconstructed, so every capture in that span is a no-op that
does not construct the queue. -/
theorem init_unconfigured_captures_noop (ops : List CoordOp)
    (hkeys : ∀ k, CoordOp.setAPIKey k ∈ ops → k = "") :
    initCoordinator.telemetry_enabled = true
    ∧ initCoordinator.api_key = ""
    ∧ initCoordinator.queue = none
    ∧ (applyOps initCoordinator ops).api_key = ""
    ∧ (applyOps initCoordinator ops).queue = none
    ∧ (∀ env platform n v,
        CaptureExtensionLoad (applyOps initCoordinator ops) env platform n v
          = applyOps initCoordinator ops)
    ∧ (∀ env n v,
        CaptureFunctionExecution (applyOps initCoordinator ops) env n v
          = applyOps initCoordinator ops) := by
  have h := applyOps_unconfigured ops initCoordinator rfl rfl hkeys
  exact ⟨rfl, rfl, rfl, h.1, h.2,
    fun env platform n v =>
      captureExtensionLoad_noop _ env platform n v (Or.inr h.1),
    fun env n v =>
      captureFunctionExecution_noop _ env n v (Or.inr h.1)⟩

/-- Operations before any non-empty SetAPIKey: captures while enabled, an
explicit SetEnabled, and a SetAPIKey with the empty key. -/
def sampleOps : List CoordOp :=
  [CoordOp.capExtensionLoad MacEnv.otherPlatform "linux" "ext" "1.0",
   CoordOp.setEnabled true,
   CoordOp.setAPIKey "",
   CoordOp.capFunctionExecution MacEnv.otherPlatform "f" "0.1.0"]

theorem init_unconfigured_captures_noop_witness :
    (applyOps initCoordinator sampleOps).api_key = ""
    ∧ (applyOps initCoordinator sampleOps).queue = none
    ∧ CaptureExtensionLoad (applyOps initCoordinator sampleOps)
        MacEnv.otherPlatform "linux" "e" "1" = applyOps initCoordinator sampleOps :=
  ⟨(init_unconfigured_captures_noop sampleOps
      (by intro k hk; simp [sampleOps] at hk; exact hk)).2.2.2.1,
   (init_unconfigured_captures_noop sampleOps
      (by intro k hk; simp [sampleOps] at hk; exact hk)).2.2.2.2.1,
   (init_unconfigured_captures_noop sampleOps
      (by intro k hk; simp [sampleOps] at hk; exact hk)).2.2.2.2.2.1
      MacEnv.otherPlatform "linux" "e" "1"⟩

end Telemetry
